import Mathlib

/-!
Verification of `src/graphql/mutation/createInsertMutationField.js`:
the generator of the "insert a row" GraphQL mutation field (input type,
payload type, insert resolver, new-edge/cursor resolver).

JavaScript values are embedded as `JsValue` with JS truthiness; objects as
association lists whose absent-property lookup yields `undefined`; a
property access on `null` is a thrown `TypeError`, embedded as `Except`.
-/

namespace InsertMutation

/-- A JavaScript runtime value, as far as this module inspects values:
`null`, `undefined`, booleans, numbers (integral ones suffice here),
strings and arrays. -/
inductive JsValue where
  | vNull
  | vUndefined
  | vBool (b : Bool)
  | vInt (n : Int)
  | vStr (s : String)
  | vList (xs : List JsValue)

/-- JavaScript truthiness: `null`, `undefined`, `false`, `0` and `""` are
falsy; every other value this embedding carries (nonzero numbers, nonempty
strings, `true`, arrays) is truthy. -/
def truthy : JsValue → Bool
  | .vNull => false
  | .vUndefined => false
  | .vBool b => b
  | .vInt n => n != 0
  | .vStr s => s != ""
  | .vList _ => true

/-- A JavaScript object with string keys, as an association list. -/
def JsObj : Type := List (String × JsValue)

/-- Property read `o[k]` on an object: the stored value, or `undefined`
when the key is absent. -/
def getProp (o : JsObj) (k : String) : JsValue :=
  match o.find? (fun p => p.1 == k) with
  | some p => p.2
  | none => .vUndefined

/-- Assignment `o[k] = v` on a JS object: an existing key keeps its
position and gets the new value, a fresh key is appended (JS insertion
order). Also models one `lodash.fromPairs`/object-literal step. -/
def objSet (o : List (String × α)) (k : String) (v : α) : List (String × α) :=
  if o.any (fun p => p.1 == k) then
    o.map (fun p => if p.1 == k then (k, v) else p)
  else
    o ++ [(k, v)]

/-- A GraphQL type reference, as far as this module manipulates types:
a named type, a list wrapper or a non-null wrapper. -/
inductive GqlType where
  | named (n : String)
  | listOf (t : GqlType)
  | nonNull (t : GqlType)
deriving DecidableEq, Repr

/-- `graphql`'s `getNullableType`: strips one non-null wrapper, otherwise
the identity. -/
def getNullableType : GqlType → GqlType
  | .nonNull t => t
  | t => t

/-- A table column as consumed by this module: SQL name (`column.name`),
API field name (`column.getFieldName()`), `hasDefault`, description, and
its GraphQL-mapped type (the result of `getColumnType(column)`,
modelled as column data — see `getColumnType`). -/
structure Column where
  name : String
  fieldName : String
  hasDefault : Bool
  description : Option String
  mappedType : GqlType
deriving DecidableEq, Repr

/-- `column.getFieldName()`. -/
def Column.getFieldName (c : Column) : String := c.fieldName

/-- Modelled from the spec: `getColumnType.js` is not part of this
fragment; §3 makes the "GraphQL-mapped type" an attribute of the Column
metadata, so the mapping is carried on the column itself. -/
def getColumnType (c : Column) : GqlType := c.mappedType

/-- A table as consumed by this module: SQL identifier
(`getIdentifier()`), GraphQL type name (`getTypeName()`), markdown type
name, field name (`getFieldName()`), ordered columns and ordered
primary-key columns. -/
structure Table where
  identifier : String
  typeName : String
  markdownTypeName : String
  fieldName : String
  columns : List Column
  primaryKeys : List Column
deriving DecidableEq, Repr

/-- `table.getColumns()`. -/
def Table.getColumns (t : Table) : List Column := t.columns

/-- `table.getPrimaryKeys()`. -/
def Table.getPrimaryKeys (t : Table) : List Column := t.primaryKeys

/-- `table.getTypeName()`. -/
def Table.getTypeName (t : Table) : String := t.typeName

/-- `table.getFieldName()`. -/
def Table.getFieldName (t : Table) : String := t.fieldName

/-- `table.getIdentifier()`. -/
def Table.getIdentifier (t : Table) : String := t.identifier

/-- The configuration of one input-object field: its type and
description. -/
structure GqlInputFieldConfig where
  type : GqlType
  description : Option String
deriving DecidableEq, Repr

/-- Modelled from the spec: `clientMutationId.js` is not part of this
fragment; §4.2 specifies "one optional `clientMutationId` field of string
type". -/
def inputClientMutationId : GqlInputFieldConfig :=
  { type := .named "String", description := none }

/-- The field config a column contributes to the insert input type:
`(column.hasDefault ? getNullableType : identity)(getColumnType(column))`
with the column's description. -/
def columnInputField (c : Column) : GqlInputFieldConfig :=
  { type := (if c.hasDefault then getNullableType (getColumnType c) else getColumnType c),
    description := c.description }

/-- A generated `GraphQLInputObjectType`: name, description and ordered
field map. -/
structure GqlInputObjectType where
  name : String
  description : String
  fields : List (String × GqlInputFieldConfig)
deriving DecidableEq, Repr

/-- `createInputType`: `Insert<TypeName>Input`, one field per column keyed
by the column's field name (`fromPairs` then object spread, so a later
duplicate key overwrites an earlier one), then the `clientMutationId`
field assigned last. -/
def createInputType (table : Table) : GqlInputObjectType :=
  { name := "Insert" ++ table.getTypeName ++ "Input"
    description := "The " ++ table.markdownTypeName ++ " to insert."
    fields :=
      objSet
        (table.getColumns.foldl
          (fun acc c => objSet acc c.getFieldName (columnInputField c)) [])
        "clientMutationId" inputClientMutationId }

/-- The name/description surface of the generated payload
`GraphQLObjectType`. Its field resolvers are the standalone functions
below (`resolveNewEdge`, and the node projection `fun r => r.output` in
the source); the payload-interface and schema-wide payload fields come
from external collaborators (§4.3) and carry no behavior verified here. -/
structure GqlPayloadType where
  name : String
  description : String
deriving DecidableEq, Repr

/-- `createPayloadType`: the payload type named `Insert<TypeName>Payload`. -/
def createPayloadType (table : Table) : GqlPayloadType :=
  { name := "Insert" ++ table.getTypeName ++ "Payload"
    description := "Contains the " ++ table.markdownTypeName ++ " node inserted by the mutation." }

/-- A database row: its string-keyed properties plus the `$$rowTable`
symbol tag (symbol keys live apart from string keys in JS). -/
structure Row where
  props : JsObj
  rowTable : Option Table

/-- An edge value `{ cursor, node }` produced by `resolveNewEdge`. -/
structure Edge where
  cursor : JsValue
  node : Option Row

/-- JS property read `output[k]` where `output` is the outcome's row or
`null`: reading a property of `null` throws a `TypeError`. -/
def jsIndex (output : Option Row) (k : String) : Except String JsValue :=
  match output with
  | none => .error "TypeError: cannot read property of null"
  | some r => .ok (getProp r.props k)

/-- `resolveNewEdge(table)`: resolves the payload's `<field>Edge` field
from `{ output }` and the optional `orderBy` argument. `if (orderBy)` is a
JS truthiness test, so an absent argument and an empty-string value both
take the primary-key branch; the primary-key cursor reads `output` by each
primary key's SQL `column.name`. -/
def resolveNewEdge (table : Table) (output : Option Row) (orderBy : Option String) :
    Except String Edge :=
  match orderBy with
  | some k =>
    if k = "" then
      (table.getPrimaryKeys.mapM (fun c => jsIndex output c.name)).map
        (fun vs => { cursor := .vList vs, node := output })
    else
      (jsIndex output k).map (fun cursor => { cursor := cursor, node := output })
  | none =>
    (table.getPrimaryKeys.mapM (fun c => jsIndex output c.name)).map
      (fun vs => { cursor := .vList vs, node := output })

/-- JS `Array.prototype.join(sep)` on strings. -/
def joinStrs (sep : String) : List String → String
  | [] => ""
  | [s] => s
  | s :: rest => s ++ sep ++ joinStrs sep rest

/-- A finalized SQL statement: text with `$n` placeholders, and the
flattened ordered parameter list. -/
structure SQLStatement where
  text : String
  params : List JsValue

/-- Modelled from the spec: `SQLBuilder.js` is not part of this fragment;
§4.1 describes an accumulator of ordered text fragments each with an
optional ordered list of bound values. -/
structure SQLBuilder where
  parts : List (String × List JsValue)

/-- `SQLBuilder#add(text, values)`: appends one fragment, fluent style. -/
def SQLBuilder.add (b : SQLBuilder) (text : String) (values : List JsValue) : SQLBuilder :=
  { parts := b.parts ++ [(text, values)] }

/-- Modelled from the spec: fragment texts carry bare `$` placeholder
marks; finalization numbers them "by overall parameter position"
(`$1`, `$2`, ...) scanning the assembled text left to right. -/
def numberChars : List Char → Nat → List Char
  | [], _ => []
  | c :: rest, n =>
    if c = '$' then '$' :: (Nat.repr n).data ++ numberChars rest (n + 1)
    else c :: numberChars rest n

/-- Modelled from the spec: finalization assembles the fragments (space
separated, as the generated statement shape in §6 shows), numbers the `$`
placeholders by overall position, and flattens the per-fragment value
lists in order into the parameter list. -/
def SQLBuilder.toQuery (b : SQLBuilder) : SQLStatement :=
  { text := String.mk (numberChars (joinStrs " " (b.parts.map Prod.fst)).data 1)
    params := (b.parts.map Prod.snd).flatten }

/-- The `valueEntries` list of `resolveInsert`: each column in table order
paired with the input value under its field name, keeping only pairs whose
value is truthy (`.filter(([, value]) => value)`). -/
def valueEntries (columns : List Column) (input : JsObj) : List (Column × JsValue) :=
  (columns.map (fun c => (c, getProp input c.getFieldName))).filter
    (fun e => truthy e.2)

/-- The SQL statement `resolveInsert` hands to `client.queryAsync`:
`insert into <identifier>`, the quoted SQL names of the kept columns, one
bare `$` per kept value (numbered on finalization), `returning *`. -/
def insertQuery (table : Table) (input : JsObj) : SQLStatement :=
  let ve := valueEntries table.getColumns input
  (((((SQLBuilder.mk []).add
      ("insert into " ++ table.getIdentifier) []).add
      ("(" ++ joinStrs ", " (ve.map (fun e => "\"" ++ e.1.name ++ "\"")) ++ ")") []).add
      "values" []).add
      ("(" ++ joinStrs ", " (ve.map (fun _ => "$")) ++ ")") (ve.map (fun e => e.2))).add
      "returning *" []
  |>.toQuery

/-- The GraphQL arguments of the insert field: the one required `input`
object. -/
structure InsertArgs where
  input : JsObj

/-- The resolver context as the resolver destructures it: the database
client (behaviorally, the rows its single round trip returns for a given
statement) plus whatever other context fields exist, never read. -/
structure ResolveContext where
  client : SQLStatement → List Row
  extra : JsValue

/-- The insert resolver's result `{ output, clientMutationId }`. -/
structure InsertResult where
  output : Option Row
  clientMutationId : JsValue

/-- `resolveInsert(table)` applied to `(source, args, { client })`:
extracts `clientMutationId` from the input, builds and executes the insert
statement, takes the first returned row if any, tags it with the
originating table (`row[$$rowTable] = table`), and returns
`{ output, clientMutationId }`; no row is not an error, `output` is null. -/
def resolveInsert (table : Table) (_source : JsValue) (args : InsertArgs)
    (ctx : ResolveContext) : InsertResult :=
  let input := args.input
  let clientMutationId := getProp input "clientMutationId"
  let rows := ctx.client (insertQuery table input)
  let output :=
    match rows.head? with
    | some row => some { row with rowTable := some table }
    | none => none
  { output := output, clientMutationId := clientMutationId }

/-- The full generated field config of `createInsertMutationField`:
payload type, description, the non-null input argument type, and the
resolver. -/
structure InsertMutationField where
  type : GqlPayloadType
  description : String
  inputArgType : GqlInputObjectType
  resolve : JsValue → InsertArgs → ResolveContext → InsertResult

/-- `createInsertMutationField(table)`. -/
def createInsertMutationField (table : Table) : InsertMutationField :=
  { type := createPayloadType table
    description := "Creates a new node of the " ++ table.markdownTypeName ++ " type."
    inputArgType := createInputType table
    resolve := resolveInsert table }

/-! ### Concrete fixtures (Scenarios A–D of the spec and collision cases) -/

/-- Scenario A: the `id` column, with a default. -/
def idColumn : Column :=
  { name := "id", fieldName := "id", hasDefault := true,
    description := none, mappedType := .nonNull (.named "Int") }

/-- Scenario A: the `name` column. -/
def nameColumn : Column :=
  { name := "name", fieldName := "name", hasDefault := false,
    description := none, mappedType := .nonNull (.named "String") }

/-- Scenario A: the `email` column. -/
def emailColumn : Column :=
  { name := "email", fieldName := "email", hasDefault := false,
    description := none, mappedType := .nonNull (.named "String") }

/-- Scenario A: the `users` table, primary key `id`. -/
def usersTable : Table :=
  { identifier := "users", typeName := "User", markdownTypeName := "`user`",
    fieldName := "user", columns := [idColumn, nameColumn, emailColumn],
    primaryKeys := [idColumn] }

/-- Scenario A input: `{name: "Alice", email: "a@x.com"}`. -/
def scenarioAInput : JsObj :=
  [("name", .vStr "Alice"), ("email", .vStr "a@x.com")]

/-- Scenario B/C row: `{id: 5, createdAt: "2020-01-01"}`. -/
def scenarioBRow : Row :=
  { props := [("id", .vInt 5), ("createdAt", .vStr "2020-01-01")],
    rowTable := none }

/-- A primary-key column whose SQL name differs from its API field name. -/
def createdAtColumn : Column :=
  { name := "created_at", fieldName := "createdAt", hasDefault := false,
    description := none, mappedType := .named "String" }

/-- A table whose primary key has distinct SQL and API names. -/
def eventsTable : Table :=
  { identifier := "events", typeName := "Event", markdownTypeName := "`event`",
    fieldName := "event", columns := [createdAtColumn],
    primaryKeys := [createdAtColumn] }

/-- A row carrying different values under the SQL name and the API name of
`createdAtColumn`, to tell the two reads apart. -/
def eventRow : Row :=
  { props := [("created_at", .vStr "under-sql-name"), ("createdAt", .vStr "under-api-name")],
    rowTable := none }

/-- A database client whose insert round trip returns no row. -/
def emptyClientCtx : ResolveContext :=
  { client := fun _ => [], extra := .vNull }

/-- A database client that returns the Scenario B row, with a distinct
`extra` context field. -/
def oneRowClientCtx : ResolveContext :=
  { client := fun _ => [scenarioBRow], extra := .vStr "other-context-field" }

/-- A column whose API field name collides with `clientMutationId`. -/
def cmColumn : Column :=
  { name := "client_mutation_id", fieldName := "clientMutationId", hasDefault := false,
    description := none, mappedType := .named "String" }

/-- A table containing `cmColumn`. -/
def cmTable : Table :=
  { identifier := "cm", typeName := "Cm", markdownTypeName := "`cm`",
    fieldName := "cm", columns := [cmColumn], primaryKeys := [] }

/-! ### Helper lemmas -/

lemma jsIndex_some (r : Row) (k : String) :
    jsIndex (some r) k = .ok (getProp r.props k) := rfl

lemma mapM_jsIndex_some (r : Row) (cs : List Column) :
    cs.mapM (fun c => jsIndex (some r) c.name) =
      Except.ok (cs.map (fun c => getProp r.props c.name)) := by
  induction cs with
  | nil => rfl
  | cons c cs ih => rw [List.mapM_cons, ih]; rfl

lemma resolveNewEdge_row_none (table : Table) (r : Row) :
    resolveNewEdge table (some r) none =
      .ok { cursor := .vList (table.primaryKeys.map (fun c => getProp r.props c.name)),
            node := some r } := by
  show (table.primaryKeys.mapM (fun c => jsIndex (some r) c.name)).map _ = _
  rw [mapM_jsIndex_some]
  rfl

lemma resolveNewEdge_row_some (table : Table) (r : Row) (k : String) (hk : k ≠ "") :
    resolveNewEdge table (some r) (some k) =
      .ok { cursor := getProp r.props k, node := some r } := by
  simp [resolveNewEdge, hk, jsIndex]
  rfl

/-! ### Claims -/

/-- **C1** (code bug): when the client returns no row the resolver indeed
yields `output = null` without error; but resolving the edge field on a
null output *throws* a `TypeError` (`output[orderBy]` /
`output[column.name]` on `null`), both with an `orderBy` argument and
without one, instead of producing the null-safe result the spec requires. -/
theorem null_output_edge_field_throws :
    (resolveInsert usersTable .vNull { input := scenarioAInput } emptyClientCtx).output
      = none ∧
    resolveNewEdge usersTable none (some "name")
      = .error "TypeError: cannot read property of null" ∧
    resolveNewEdge usersTable none none
      = .error "TypeError: cannot read property of null" :=
  ⟨rfl, rfl, rfl⟩

/-- **C2**: for an outcome row `r`, a supplied (truthy) ordering selector
`k` makes the cursor `r[k]`; no selector makes it the ordered list of the
table's primary-key values of `r`; in both cases the node is `r`. -/
theorem edge_cursor_law (table : Table) (r : Row) (k : String) (hk : k ≠ "") :
    resolveNewEdge table (some r) (some k) =
      .ok { cursor := getProp r.props k, node := some r } ∧
    resolveNewEdge table (some r) none =
      .ok { cursor := .vList (table.primaryKeys.map (fun c => getProp r.props c.name)),
            node := some r } :=
  ⟨resolveNewEdge_row_some table r k hk, resolveNewEdge_row_none table r⟩

/-- Witness for C2 at Scenarios B and C: row `{id: 5, createdAt:
"2020-01-01"}` with selector `createdAt` gives cursor `"2020-01-01"`;
without a selector, primary key `[id]` gives cursor `[5]`. -/
theorem edge_cursor_law_witness :
    resolveNewEdge usersTable (some scenarioBRow) (some "createdAt") =
      .ok { cursor := .vStr "2020-01-01", node := some scenarioBRow } ∧
    resolveNewEdge usersTable (some scenarioBRow) none =
      .ok { cursor := .vList [.vInt 5], node := some scenarioBRow } :=
  edge_cursor_law usersTable scenarioBRow "createdAt" (by decide)

/-- **C6**: the result's `clientMutationId` is the submitted input's
`clientMutationId` property, unmodified, whatever the client returned. -/
theorem clientMutationId_echoed (table : Table) (source : JsValue)
    (args : InsertArgs) (ctx : ResolveContext) :
    (resolveInsert table source args ctx).clientMutationId =
      getProp args.input "clientMutationId" := rfl

/-- **C7**: the generated input and payload type names are
`Insert<T>Input` / `Insert<T>Payload` for the table's type name `T`, and
any two tables with the same type name get identical names. -/
theorem type_names_deterministic (table : Table) :
    (createInputType table).name = "Insert" ++ table.getTypeName ++ "Input" ∧
    (createPayloadType table).name = "Insert" ++ table.getTypeName ++ "Payload" ∧
    ∀ t2 : Table, t2.getTypeName = table.getTypeName →
      (createInputType t2).name = (createInputType table).name ∧
      (createPayloadType t2).name = (createPayloadType table).name := by
  refine ⟨rfl, rfl, fun t2 h => ⟨?_, ?_⟩⟩ <;>
    simp [createInputType, createPayloadType, h]

/-- Witness for C7: `users` and a rebuilt copy with the same type name. -/
theorem type_names_deterministic_witness :
    (createInputType usersTable).name = "Insert" ++ usersTable.getTypeName ++ "Input" ∧
    (createPayloadType usersTable).name = "Insert" ++ usersTable.getTypeName ++ "Payload" ∧
    ∀ t2 : Table, t2.getTypeName = usersTable.getTypeName →
      (createInputType t2).name = (createInputType usersTable).name ∧
      (createPayloadType t2).name = (createPayloadType usersTable).name :=
  type_names_deterministic usersTable

/-- **C8**: the primary-key cursor reads the row under each primary key's
SQL `column.name` (not its API field name), while an `orderBy` cursor
reads the row under the argument value directly. -/
theorem pk_cursor_reads_sql_names (table : Table) (r : Row)
    (_hdiff : ∀ c ∈ table.primaryKeys, c.name ≠ c.fieldName) :
    resolveNewEdge table (some r) none =
      .ok { cursor := .vList (table.primaryKeys.map (fun c => getProp r.props c.name)),
            node := some r } ∧
    ∀ k, k ≠ "" → resolveNewEdge table (some r) (some k) =
      .ok { cursor := getProp r.props k, node := some r } :=
  ⟨resolveNewEdge_row_none table r, fun k hk => resolveNewEdge_row_some table r k hk⟩

/-- Witness for C8: primary key `created_at`/`createdAt` with a row whose
two names carry different values — the cursor picks the SQL-name value. -/
theorem pk_cursor_reads_sql_names_witness :
    resolveNewEdge eventsTable (some eventRow) none =
      .ok { cursor := .vList [.vStr "under-sql-name"], node := some eventRow } ∧
    ∀ k, k ≠ "" → resolveNewEdge eventsTable (some eventRow) (some k) =
      .ok { cursor := getProp eventRow.props k, node := some eventRow } := by
  have h := pk_cursor_reads_sql_names eventsTable eventRow (by decide)
  exact ⟨h.1, h.2⟩

/-- **C9**: when the client returns a first row `r`, the resolver's output
is that row with (only) the `$$rowTable` tag set to the originating table;
all string-keyed properties are exactly those the client returned. -/
theorem insert_output_is_tagged_client_row (table : Table) (source : JsValue)
    (args : InsertArgs) (ctx : ResolveContext) (r : Row) (rest : List Row)
    (h : ctx.client (insertQuery table args.input) = r :: rest) :
    (resolveInsert table source args ctx).output =
      some { props := r.props, rowTable := some table } := by
  simp [resolveInsert, h]

/-- Witness for C9: a client returning the Scenario B row. -/
theorem insert_output_is_tagged_client_row_witness :
    (resolveInsert usersTable .vNull { input := scenarioAInput } oneRowClientCtx).output =
      some { props := scenarioBRow.props, rowTable := some usersTable } :=
  insert_output_is_tagged_client_row usersTable .vNull { input := scenarioAInput }
    oneRowClientCtx scenarioBRow [] rfl

/-- **C10**: the resolver's result depends only on the submitted input and
the rows the client returns: the source value and non-`client` context
fields are never read. -/
theorem insert_result_depends_only_on_input_and_rows (table : Table)
    (args : InsertArgs) (s1 s2 : JsValue) (c1 c2 : ResolveContext)
    (h : c1.client (insertQuery table args.input) =
         c2.client (insertQuery table args.input)) :
    resolveInsert table s1 args c1 = resolveInsert table s2 args c2 := by
  simp [resolveInsert, h]

/-- Witness for C10: two invocations differing in source and in the extra
context field, with clients agreeing on the returned rows. -/
theorem insert_result_depends_only_on_input_and_rows_witness :
    resolveInsert usersTable (.vStr "source-one") { input := scenarioAInput }
        { client := fun _ => [scenarioBRow], extra := .vInt 1 } =
      resolveInsert usersTable (.vStr "source-two") { input := scenarioAInput }
        { client := fun _ => [scenarioBRow], extra := .vInt 2 } :=
  insert_result_depends_only_on_input_and_rows usersTable { input := scenarioAInput }
    (.vStr "source-one") (.vStr "source-two") _ _ rfl

/-- An input whose values are all falsy scalars: `0`, `""`, `false`. -/
def falsyInput : JsObj :=
  [("id", .vInt 0), ("name", .vStr ""), ("email", .vBool false)]

lemma valueEntries_eq_filter (cols : List Column) (input : JsObj) :
    valueEntries cols input =
      (cols.filter (fun c => truthy (getProp input c.getFieldName))).map
        (fun c => (c, getProp input c.getFieldName)) := by
  induction cols with
  | nil => rfl
  | cons c cs ih =>
    have ih' := ih
    simp only [valueEntries] at ih' ⊢
    by_cases h : truthy (getProp input c.getFieldName) <;>
      simp [List.filter_cons, h, ih']

lemma mem_valueEntries (cols : List Column) (input : JsObj) {e : Column × JsValue}
    (he : e ∈ valueEntries cols input) :
    e.1 ∈ cols ∧ e.2 = getProp input e.1.getFieldName ∧ truthy e.2 = true := by
  unfold valueEntries at he
  have h1 := List.of_mem_filter he
  have h2 := List.mem_of_mem_filter he
  obtain ⟨c, hc, rfl⟩ := List.mem_map.mp h2
  exact ⟨hc, rfl, h1⟩

/-- **C4**: the filter `([, value]) => value` keeps a (column, value) pair
iff the value is JS-truthy, so `0`, `""`, `false` (and `null`/`undefined`)
are excluded, and such columns appear in neither the column nor the
parameter list of the statement. -/
theorem presence_filter_is_js_truthiness (columns : List Column) (input : JsObj) :
    valueEntries columns input =
      (columns.filter (fun c => truthy (getProp input c.getFieldName))).map
        (fun c => (c, getProp input c.getFieldName)) ∧
    truthy (.vInt 0) = false ∧
    truthy (.vStr "") = false ∧
    truthy (.vBool false) = false ∧
    truthy .vNull = false ∧
    truthy .vUndefined = false ∧
    ∀ c ∈ columns, truthy (getProp input c.getFieldName) = false →
      ∀ v, (c, v) ∉ valueEntries columns input := by
  refine ⟨valueEntries_eq_filter columns input, rfl, rfl, rfl, rfl, rfl, ?_⟩
  intro c _ hfalse v hmem
  obtain ⟨-, hv, ht⟩ := mem_valueEntries columns input hmem
  rw [hv] at ht
  exact absurd ht (by simp [hfalse])

/-- Witness for C4: Scenario-A columns with all-falsy input values keep no
entry at all. -/
theorem presence_filter_is_js_truthiness_witness :
    valueEntries usersTable.columns falsyInput =
      (usersTable.columns.filter
        (fun c => truthy (getProp falsyInput c.getFieldName))).map
        (fun c => (c, getProp falsyInput c.getFieldName)) ∧
    truthy (.vInt 0) = false ∧
    truthy (.vStr "") = false ∧
    truthy (.vBool false) = false ∧
    truthy .vNull = false ∧
    truthy .vUndefined = false ∧
    ∀ c ∈ usersTable.columns, truthy (getProp falsyInput c.getFieldName) = false →
      ∀ v, (c, v) ∉ valueEntries usersTable.columns falsyInput :=
  presence_filter_is_js_truthiness usersTable.columns falsyInput

lemma any_key_eq_false {α} (o : List (String × α)) (k : String)
    (h : ∀ p ∈ o, p.1 ≠ k) : o.any (fun p => p.1 == k) = false := by
  rw [List.any_eq_false]
  intro p hp
  simpa using h p hp

lemma objSet_fresh {α} (o : List (String × α)) (k : String) (v : α)
    (h : ∀ p ∈ o, p.1 ≠ k) : objSet o k v = o ++ [(k, v)] := by
  simp [objSet, any_key_eq_false o k h]

lemma foldl_objSet_fresh (cols : List Column) (acc : List (String × GqlInputFieldConfig))
    (hdisj : ∀ c ∈ cols, ∀ p ∈ acc, p.1 ≠ c.getFieldName)
    (hnd : (cols.map Column.getFieldName).Nodup) :
    cols.foldl (fun a c => objSet a c.getFieldName (columnInputField c)) acc =
      acc ++ cols.map (fun c => (c.getFieldName, columnInputField c)) := by
  induction cols generalizing acc with
  | nil => simp
  | cons c cs ih =>
    rw [List.foldl_cons,
      objSet_fresh _ _ _ (fun p hp => hdisj c (List.mem_cons_self c cs) p hp),
      ih (acc ++ [(c.getFieldName, columnInputField c)]) ?_ (List.nodup_cons.mp hnd).2]
    · simp
    · intro c' hc' p hp
      rcases List.mem_append.mp hp with h1 | h2
      · exact hdisj c' (List.mem_cons_of_mem _ hc') p h1
      · have hp1 : p = (c.getFieldName, columnInputField c) := by simpa using h2
        subst hp1
        intro heq
        have heq' : c.getFieldName = c'.getFieldName := heq
        exact (List.nodup_cons.mp hnd).1
          (by rw [heq']; exact List.mem_map_of_mem Column.getFieldName hc')

/-- **C5** counterexample: a table with one column whose API field name is
`clientMutationId`. The object spread makes the final `clientMutationId`
assignment overwrite the column's field, so the generated input type has 1
field, not `columns + 1 = 2` — it does not have one field per column plus
a separate `clientMutationId` field. -/
theorem input_type_field_count_counterexample :
    ¬ ((createInputType cmTable).fields.length = cmTable.columns.length + 1) := by
  decide

/-- **C5** (amended): for every table whose column field names are
pairwise distinct and none equal to `clientMutationId`, the input type has
exactly one field per column, keyed by the column's field name, typed as
the mapped type made nullable iff `hasDefault`, followed by the one
`clientMutationId` field and nothing else. -/
theorem input_type_fields_amended (table : Table)
    (hnd : (table.columns.map Column.getFieldName).Nodup)
    (hcm : ∀ c ∈ table.columns, c.getFieldName ≠ "clientMutationId") :
    (createInputType table).fields =
      table.columns.map (fun c =>
        (c.getFieldName,
          ({ type := if c.hasDefault then getNullableType (getColumnType c) else getColumnType c,
             description := c.description } : GqlInputFieldConfig))) ++
      [("clientMutationId", inputClientMutationId)] ∧
    (createInputType table).fields.length = table.columns.length + 1 := by
  have hfields : (createInputType table).fields =
      table.columns.map (fun c => (c.getFieldName, columnInputField c)) ++
        [("clientMutationId", inputClientMutationId)] := by
    show objSet (table.columns.foldl _ []) "clientMutationId" inputClientMutationId = _
    rw [foldl_objSet_fresh table.columns [] (by intro c _ p hp; simp at hp) hnd,
      List.nil_append, objSet_fresh]
    intro p hp
    obtain ⟨c, hc, rfl⟩ := List.mem_map.mp hp
    exact hcm c hc
  constructor
  · rw [hfields]
    simp [columnInputField]
  · rw [hfields]
    simp

/-- Witness for C5 (amended) at the Scenario-A `users` table. -/
theorem input_type_fields_amended_witness :
    (createInputType usersTable).fields =
      usersTable.columns.map (fun c =>
        (c.getFieldName,
          ({ type := if c.hasDefault then getNullableType (getColumnType c) else getColumnType c,
             description := c.description } : GqlInputFieldConfig))) ++
      [("clientMutationId", inputClientMutationId)] ∧
    (createInputType usersTable).fields.length = usersTable.columns.length + 1 :=
  input_type_fields_amended usersTable (by decide) (by decide)

/-! ### Placeholder-numbering lemmas for the statement-shape claim -/

/-- Occurrences of the bare `$` placeholder mark in a character list. -/
def countD : List Char → Nat
  | [] => 0
  | c :: rest => (if c = '$' then 1 else 0) + countD rest

lemma countD_append (s t : List Char) : countD (s ++ t) = countD s + countD t := by
  induction s with
  | nil => simp [countD]
  | cons c s ih => simp [countD, ih]; omega

lemma strData_append (s t : String) : (s ++ t).data = s.data ++ t.data := by
  cases s; cases t; rfl

lemma strEq_of_data {s t : String} (h : s.data = t.data) : s = t := by
  cases s; cases t; exact congrArg String.mk h

lemma joinStrs_cons_cons (sep a b : String) (l : List String) :
    joinStrs sep (a :: b :: l) = a ++ sep ++ joinStrs sep (b :: l) := rfl

lemma numberChars_cons_dollar (rest : List Char) (n : Nat) :
    numberChars ('$' :: rest) n = '$' :: (Nat.repr n).data ++ numberChars rest (n + 1) := by
  simp [numberChars]

lemma numberChars_cons_other (c : Char) (hc : c ≠ '$') (rest : List Char) (n : Nat) :
    numberChars (c :: rest) n = c :: numberChars rest n := by
  simp [numberChars, hc]

lemma countD_cons_dollar (rest : List Char) :
    countD ('$' :: rest) = 1 + countD rest := by
  simp [countD]

lemma countD_cons_other (c : Char) (hc : c ≠ '$') (rest : List Char) :
    countD (c :: rest) = countD rest := by
  simp [countD, hc]

lemma numberChars_append (s t : List Char) (n : Nat) :
    numberChars (s ++ t) n = numberChars s n ++ numberChars t (n + countD s) := by
  induction s generalizing n with
  | nil => simp [numberChars, countD]
  | cons c s ih =>
    by_cases hc : c = '$'
    · subst hc
      rw [List.cons_append, numberChars_cons_dollar, numberChars_cons_dollar, ih,
        countD_cons_dollar, show n + 1 + countD s = n + (1 + countD s) from by omega]
      simp [List.append_assoc]
    · rw [List.cons_append, numberChars_cons_other c hc, numberChars_cons_other c hc, ih,
        countD_cons_other c hc]
      simp

lemma numberChars_nodollar (s : List Char) (h : countD s = 0) (n : Nat) :
    numberChars s n = s := by
  induction s generalizing n with
  | nil => rfl
  | cons c s ih =>
    by_cases hc : c = '$'
    · subst hc; simp [countD] at h
    · have hs : countD s = 0 := by simpa [countD, hc] using h
      simp [numberChars, if_neg hc, ih hs]

lemma numberChars_sandwich (pre mid post : List Char) (n : Nat)
    (hpre : countD pre = 0) (hpost : countD post = 0) :
    numberChars (pre ++ (mid ++ post)) n = pre ++ numberChars mid n ++ post := by
  rw [numberChars_append, numberChars_append, numberChars_nodollar pre hpre, hpre,
    numberChars_nodollar post hpost]
  simp [List.append_assoc]

lemma countD_joinStrs (sep : String) (l : List String) (hsep : countD sep.data = 0)
    (h : ∀ s ∈ l, countD s.data = 0) : countD (joinStrs sep l).data = 0 := by
  induction l with
  | nil => rfl
  | cons s rest ih =>
    cases rest with
    | nil => exact h s (by simp)
    | cons r rest' =>
      rw [joinStrs_cons_cons, strData_append, strData_append, countD_append, countD_append,
        h s (by simp), hsep, ih (fun x hx => h x (by simp [hx]))]

lemma numberChars_run (k n : Nat) :
    numberChars (joinStrs ", " (List.replicate k "$")).data n =
      (joinStrs ", " ((List.range k).map (fun i => "$" ++ Nat.repr (n + i)))).data := by
  induction k generalizing n with
  | zero => rfl
  | succ k ih =>
    cases k with
    | zero =>
      have h1 : List.replicate 1 "$" = ["$"] := rfl
      have h2 : List.range 1 = [0] := rfl
      rw [h1, h2, List.map_cons, List.map_nil]
      show numberChars ("$" : String).data n = (("$" ++ Nat.repr (n + 0)) : String).data
      rw [strData_append, show ("$" : String).data = ['$'] from rfl, numberChars_cons_dollar]
      simp [numberChars]
    | succ k' =>
      have hT : joinStrs ", " (List.replicate (k' + 1 + 1) "$") =
          "$" ++ ", " ++ joinStrs ", " (List.replicate (k' + 1) "$") := rfl
      have hrest : (List.range (k' + 1 + 1)).map (fun i => "$" ++ Nat.repr (n + i)) =
          ("$" ++ Nat.repr n) :: (List.range (k' + 1)).map
            (fun i => "$" ++ Nat.repr (n + 1 + i)) := by
        rw [List.range_succ_eq_map, List.map_cons, List.map_map]
        refine congrArg₂ List.cons (by simp) (List.map_congr_left ?_)
        intro i _
        exact congrArg (fun m => "$" ++ Nat.repr m) (by omega)
      have hjoin : joinStrs ", " (("$" ++ Nat.repr n) :: (List.range (k' + 1)).map
            (fun i => "$" ++ Nat.repr (n + 1 + i))) =
          ("$" ++ Nat.repr n) ++ ", " ++ joinStrs ", " ((List.range (k' + 1)).map
            (fun i => "$" ++ Nat.repr (n + 1 + i))) := by
        rw [List.range_succ_eq_map, List.map_cons]
        exact joinStrs_cons_cons _ _ _ _
      rw [hT, hrest, hjoin]
      simp only [strData_append, show ("$" : String).data = ['$'] from rfl,
        show (", " : String).data = [',', ' '] from rfl]
      simp only [List.cons_append, List.nil_append, List.append_assoc]
      rw [numberChars_cons_dollar, numberChars_cons_other ',' (by decide),
        numberChars_cons_other ' ' (by decide), ih (n + 1)]
      simp [List.append_assoc]

lemma insertQuery_params (table : Table) (input : JsObj) :
    (insertQuery table input).params =
      (valueEntries table.columns input).map (fun e => e.2) := by
  simp [insertQuery, SQLBuilder.add, SQLBuilder.toQuery, Table.getColumns]

lemma insertQuery_text (table : Table) (input : JsObj)
    (hid : countD table.identifier.data = 0)
    (hcols : ∀ c ∈ table.columns, countD c.name.data = 0) :
    (insertQuery table input).text =
      "insert into " ++ table.identifier ++ " (" ++
        joinStrs ", " ((valueEntries table.columns input).map
          (fun e => "\"" ++ e.1.name ++ "\"")) ++
      ") values (" ++
        joinStrs ", " ((List.range (valueEntries table.columns input).length).map
          (fun i => "$" ++ Nat.repr (i + 1))) ++
      ") returning *" := by
  have hQmem : ∀ s ∈ (valueEntries table.columns input).map
      (fun e => "\"" ++ e.1.name ++ "\""), countD s.data = 0 := by
    intro s hs
    obtain ⟨e, he, rfl⟩ := List.mem_map.mp hs
    have hc := (mem_valueEntries table.columns input he).1
    rw [strData_append, strData_append, countD_append, countD_append, hcols e.1 hc]
    decide
  have hQ : countD (joinStrs ", " ((valueEntries table.columns input).map
      (fun e => "\"" ++ e.1.name ++ "\""))).data = 0 :=
    countD_joinStrs _ _ (by decide) hQmem
  have hD : (valueEntries table.columns input).map (fun _ => "$") =
      List.replicate (valueEntries table.columns input).length "$" := by
    simp [List.map_const']
  have hPRE : countD (("insert into " : String).data ++ table.identifier.data ++
      (" (" : String).data ++ (joinStrs ", " ((valueEntries table.columns input).map
        (fun e => "\"" ++ e.1.name ++ "\""))).data ++ (") values (" : String).data) = 0 := by
    simp [countD, countD_append, hid, hQ]
  have hPOST : countD ((") returning *" : String).data) = 0 := by decide
  have hstart : (insertQuery table input).text.data =
      numberChars (joinStrs " " [
        "insert into " ++ table.identifier,
        "(" ++ joinStrs ", " ((valueEntries table.columns input).map
          (fun e => "\"" ++ e.1.name ++ "\"")) ++ ")",
        "values",
        "(" ++ joinStrs ", " ((valueEntries table.columns input).map (fun _ => "$")) ++ ")",
        "returning *"]).data 1 := rfl
  have hsplit : (joinStrs " " [
        "insert into " ++ table.identifier,
        "(" ++ joinStrs ", " ((valueEntries table.columns input).map
          (fun e => "\"" ++ e.1.name ++ "\"")) ++ ")",
        "values",
        "(" ++ joinStrs ", " ((valueEntries table.columns input).map (fun _ => "$")) ++ ")",
        "returning *"]).data =
      (("insert into " : String).data ++ table.identifier.data ++
        (" (" : String).data ++ (joinStrs ", " ((valueEntries table.columns input).map
          (fun e => "\"" ++ e.1.name ++ "\""))).data ++ (") values (" : String).data) ++
      ((joinStrs ", " ((valueEntries table.columns input).map (fun _ => "$"))).data ++
        (") returning *" : String).data) := by
    simp only [joinStrs, strData_append,
      show (" " : String).data = [' '] from rfl,
      show ("(" : String).data = ['('] from rfl,
      show (")" : String).data = [')'] from rfl,
      show ("values" : String).data = ['v', 'a', 'l', 'u', 'e', 's'] from rfl,
      show ("returning *" : String).data =
        ['r', 'e', 't', 'u', 'r', 'n', 'i', 'n', 'g', ' ', '*'] from rfl,
      show (" (" : String).data = [' ', '('] from rfl,
      show (") values (" : String).data =
        [')', ' ', 'v', 'a', 'l', 'u', 'e', 's', ' ', '('] from rfl,
      show (") returning *" : String).data =
        [')', ' ', 'r', 'e', 't', 'u', 'r', 'n', 'i', 'n', 'g', ' ', '*'] from rfl]
    simp [List.append_assoc]
  have hrun : numberChars (joinStrs ", " ((valueEntries table.columns input).map
        (fun _ => "$"))).data 1 =
      (joinStrs ", " ((List.range (valueEntries table.columns input).length).map
        (fun i => "$" ++ Nat.repr (i + 1)))).data := by
    rw [hD, numberChars_run]
    refine congrArg String.data (congrArg (joinStrs ", ") (List.map_congr_left ?_))
    intro i _
    exact congrArg (fun m => "$" ++ Nat.repr m) (by omega)
  refine strEq_of_data ?_
  rw [hstart, hsplit, numberChars_sandwich _ _ _ 1 hPRE hPOST, hrun]
  simp [strData_append, List.append_assoc]

/-- **C3**: the generated statement is exactly
`insert into <identifier> (<quoted col>, ...) values ($1, ...) returning *`
over the columns whose input value passes the presence filter, in table
column order, with as many parameters as listed columns and the i-th
parameter being the value submitted for the i-th listed column
(the identifier and column names are assumed free of the `$` placeholder
mark the finalizer numbers). -/
theorem insert_statement_shape (table : Table) (input : JsObj)
    (hid : countD table.identifier.data = 0)
    (hcols : ∀ c ∈ table.columns, countD c.name.data = 0) :
    (insertQuery table input).text =
      "insert into " ++ table.identifier ++ " (" ++
        joinStrs ", " ((valueEntries table.columns input).map
          (fun e => "\"" ++ e.1.name ++ "\"")) ++
      ") values (" ++
        joinStrs ", " ((List.range (valueEntries table.columns input).length).map
          (fun i => "$" ++ Nat.repr (i + 1))) ++
      ") returning *" ∧
    (insertQuery table input).params =
      (valueEntries table.columns input).map (fun e => e.2) ∧
    (valueEntries table.columns input).map (fun e => e.1) =
      table.columns.filter (fun c => truthy (getProp input c.getFieldName)) ∧
    ((valueEntries table.columns input).map (fun e => e.2)).length =
      ((valueEntries table.columns input).map (fun e => e.1)).length ∧
    ∀ e ∈ valueEntries table.columns input, e.2 = getProp input e.1.getFieldName := by
  refine ⟨insertQuery_text table input hid hcols, insertQuery_params table input, ?_, by simp,
    fun e he => (mem_valueEntries table.columns input he).2.1⟩
  rw [valueEntries_eq_filter]
  simp [List.map_map, Function.comp_def]

/-- Witness for C3 at Scenario A: `users` with input
`{name: "Alice", email: "a@x.com"}` yields statement columns
`["name", "email"]` and params `["Alice", "a@x.com"]`. -/
theorem insert_statement_shape_witness :
    (insertQuery usersTable scenarioAInput).text =
      "insert into " ++ usersTable.identifier ++ " (" ++
        joinStrs ", " ((valueEntries usersTable.columns scenarioAInput).map
          (fun e => "\"" ++ e.1.name ++ "\"")) ++
      ") values (" ++
        joinStrs ", " ((List.range (valueEntries usersTable.columns scenarioAInput).length).map
          (fun i => "$" ++ Nat.repr (i + 1))) ++
      ") returning *" ∧
    (insertQuery usersTable scenarioAInput).params =
      (valueEntries usersTable.columns scenarioAInput).map (fun e => e.2) ∧
    (valueEntries usersTable.columns scenarioAInput).map (fun e => e.1) =
      usersTable.columns.filter (fun c => truthy (getProp scenarioAInput c.getFieldName)) ∧
    ((valueEntries usersTable.columns scenarioAInput).map (fun e => e.2)).length =
      ((valueEntries usersTable.columns scenarioAInput).map (fun e => e.1)).length ∧
    ∀ e ∈ valueEntries usersTable.columns scenarioAInput,
      e.2 = getProp scenarioAInput e.1.getFieldName :=
  insert_statement_shape usersTable scenarioAInput (by decide) (by decide)

end InsertMutation
